import Mathlib

/-!
Verification development for the SOC-Assist Risk Scoring & Adaptive
Calibration Engine.

The definitions below are a shallow embedding of `app/core/engine.py`
(class `IncidentEngine`), `app/core/calibration.py` (`run_calibration`)
and the manual weight edit in `app/routes/admin.py`
(`update_question_weight`).  Python floats are idealised as rationals
(`ℚ`); Python's `round(x, n)` (banker's rounding, half to even) is
modelled exactly by `roundHE`/`roundTo`.  Python dicts are modelled as
association lists that preserve insertion order; `dict.get` is
association-list lookup.
-/

namespace SOCAssist

/-! ### Rounding: Python `round(x, d)` on exact rationals -/

/-- Round a rational to the nearest integer, ties to even
(the rounding mode of Python's built-in `round`). -/
def roundHE (x : ℚ) : ℤ :=
  let n := ⌊x⌋
  let r := x - n
  if r < 1/2 then n
  else if 1/2 < r then n + 1
  else if n % 2 = 0 then n else n + 1

/-- Python `round(x, d)`: round to `d` decimal places, half to even. -/
def roundTo (d : ℕ) (x : ℚ) : ℚ :=
  (roundHE (x * 10 ^ d) : ℚ) / 10 ^ d

/-- Python `round(x, 2)` as used for contributions and scores. -/
def round2 (x : ℚ) : ℚ := roundTo 2 x

/-- Python `round(x, 3)` as used for multipliers and weights. -/
def round3 (x : ℚ) : ℚ := roundTo 3 x

/-! ### Data model (`questions.json`, `config_engine.json`) -/

/-- An option of a question: `{value, label, score}`. -/
structure QOption where
  value : String
  label : String
  score : ℚ
deriving DecidableEq, Repr

/-- A question of the catalog: `{id, module, text, weight, options}`. -/
structure Question where
  id : String
  module : String
  text : String
  weight : ℚ
  options : List QOption
deriving DecidableEq, Repr

/-- A condition of a hard rule or multiplier rule: `{question_id, value}`. -/
structure Condition where
  question_id : String
  value : String
deriving DecidableEq, Repr

/-- A hard rule: conjunctive conditions, a classification tier,
an override message. -/
structure HardRule where
  conditions : List Condition
  classification : String
  override_message : String
deriving DecidableEq, Repr

/-- A multiplier rule: conjunctive conditions and a factor. -/
structure MultRule where
  conditions : List Condition
  multiplier : ℚ
deriving DecidableEq, Repr

/-- One classification tier's score range `{min, max}`. -/
structure Tier where
  tmin : ℚ
  tmax : ℚ
deriving DecidableEq, Repr

/-- The engine's configuration snapshot (`IncidentEngine.__init__`):
module weights, thresholds (insertion-ordered, least to most severe),
multiplier rules, hard rules, recommendations and the question catalog. -/
structure Engine where
  module_weights : List (String × ℚ)
  thresholds : List (String × Tier)
  multipliers : List MultRule
  hard_rules : List HardRule
  recommendations : List (String × String)
  questions : List Question
deriving DecidableEq, Repr

/-- Association-list lookup, the model of Python `dict.get` /
`dict[...]` on insertion-ordered dicts with unique keys. -/
def lookupStr {α : Type} (l : List (String × α)) (k : String) : Option α :=
  (l.find? (fun p => p.1 == k)).map (·.2)

/-- Lookup `questions_map[qid]` (`{q["id"]: q for q in questions}`, ids unique). -/
def findQuestion (qs : List Question) (qid : String) : Option Question :=
  qs.find? (fun q => q.id == qid)

/-- Embedding of `IncidentEngine._get_raw_score`: raw score of the selected option,
`0.0` when the value is unrecognized. -/
def getRawScore (q : Question) (v : String) : ℚ :=
  match q.options.find? (fun o => o.value == v) with
  | some o => o.score
  | none => 0

/-- Embedding of `IncidentEngine._get_option_label`. -/
def getOptionLabel (q : Question) (v : String) : String :=
  match q.options.find? (fun o => o.value == v) with
  | some o => o.label
  | none => v

/-- Condition match `answers.get(c["question_id"]) == c["value"]`. -/
def condMatches (answers : List (String × String)) (c : Condition) : Bool :=
  lookupStr answers c.question_id == some c.value

/-- All conditions of a rule hold (AND). -/
def condsMatch (answers : List (String × String)) (cs : List Condition) : Bool :=
  cs.all (condMatches answers)

/-- Embedding of `IncidentEngine._check_hard_rules`: first rule whose conditions all
match, in declaration order. -/
def checkHardRules (rules : List HardRule) (answers : List (String × String)) :
    Option HardRule :=
  rules.find? (fun r => condsMatch answers r.conditions)

/-- Embedding of `IncidentEngine._calculate_multiplier`: product of the factors of all
matching rules, rounded to 3 decimals. -/
def calcMultiplier (rules : List MultRule) (answers : List (String × String)) : ℚ :=
  round3 (rules.foldl
    (fun total r => if condsMatch answers r.conditions then total * r.multiplier else total)
    1)

/-- Embedding of `IncidentEngine._get_active_multipliers`. -/
def activeMultipliers (rules : List MultRule) (answers : List (String × String)) :
    List MultRule :=
  rules.filter (fun r => condsMatch answers r.conditions)

/-- Embedding of `IncidentEngine._classify`: first tier whose `[min, max]` range
contains the score; hardcoded fallback `"brecha"` when none matches. -/
def classify (thresholds : List (String × Tier)) (score : ℚ) : String :=
  match thresholds.find? (fun p => decide (p.2.tmin ≤ score ∧ score ≤ p.2.tmax)) with
  | some p => p.1
  | none => "brecha"

/-- One line of the per-answer breakdown (`answer_details`). -/
structure AnswerDetail where
  question_id : String
  question_text : String
  module : String
  value : String
  value_label : String
  raw_score : ℚ
  contribution : ℚ
deriving DecidableEq, Repr

/-- Update `module_scores[mod] = module_scores.get(mod, 0.0) + contribution` on
an insertion-ordered dict: bump the existing key or append a new one. -/
def addScore : List (String × ℚ) → String → ℚ → List (String × ℚ)
  | [], m, c => [(m, c)]
  | p :: rest, m, c =>
    if p.1 == m then (p.1, p.2 + c) :: rest else p :: addScore rest m c

/-- One iteration of the answers loop of `IncidentEngine.evaluate`
(steps: unknown id → skip; raw score 0 → skip; otherwise accumulate the
module score and append the detail line). -/
def evalStep (e : Engine) (acc : List (String × ℚ) × List AnswerDetail)
    (ans : String × String) : List (String × ℚ) × List AnswerDetail :=
  match findQuestion e.questions ans.1 with
  | none => acc
  | some q =>
    let raw := getRawScore q ans.2
    if raw == 0 then acc
    else
      let modw := (lookupStr e.module_weights q.module).getD 1
      let contribution := round2 (raw * modw * q.weight)
      (addScore acc.1 q.module contribution,
       acc.2 ++ [{ question_id := ans.1, question_text := q.text, module := q.module,
                   value := ans.2, value_label := getOptionLabel q ans.2,
                   raw_score := raw, contribution := contribution }])

/-- The answers loop: builds `module_scores` and `answer_details`. -/
def evalAnswers (e : Engine) (answers : List (String × String)) :
    List (String × ℚ) × List AnswerDetail :=
  answers.foldl (evalStep e) ([], [])

/-- Sum `sum(module_scores.values())`. -/
def sumValues (ms : List (String × ℚ)) : ℚ := (ms.map (·.2)).sum

/-- Embedding of `base_score = round(sum(module_scores.values()), 2)`. -/
def baseScore (e : Engine) (answers : List (String × String)) : ℚ :=
  round2 (sumValues (evalAnswers e answers).1)

/-- Embedding of `final_score = round(base_score * multiplier, 2)`. -/
def finalScore (e : Engine) (answers : List (String × String)) : ℚ :=
  round2 (baseScore e answers * calcMultiplier e.multipliers answers)

/-- Step 4 of `evaluate`: reconcile the score-derived classification
with a matched hard rule — indices in the configured tier order
(`list(self.thresholds.keys())`), missing keys indexed 0, and the tier
at the larger index wins.  Python's `order[...]` raises `IndexError` on
an empty order; the embedding returns the score classification there
(unreachable when a tier list is configured). -/
def reconcile (thresholds : List (String × Tier)) (hr : Option HardRule)
    (score_classification : String) : String :=
  match hr with
  | some rule =>
    let order := thresholds.map Prod.fst
    let hrIdx := if order.contains rule.classification
                 then order.indexOf rule.classification else 0
    let scIdx := if order.contains score_classification
                 then order.indexOf score_classification else 0
    order.getD (max hrIdx scIdx) score_classification
  | none => score_classification

/-- The full evaluation result (`evaluate`'s returned dict).  The two
dict lookups `thresholds[classification]` and
`recommendations[classification]` can raise `KeyError` in Python; they
are embedded as `Option` fields. -/
structure EvalResult where
  base_score : ℚ
  final_score : ℚ
  multiplier : ℚ
  classification : String
  threshold_info : Option Tier
  recommendation : Option String
  module_scores : List (String × ℚ)
  answer_details : List AnswerDetail
  hard_rule : Option HardRule
  override_msg : Option String
  active_multipliers : List MultRule
deriving DecidableEq, Repr

/-- Embedding of `IncidentEngine.evaluate`. -/
def evaluate (e : Engine) (answers : List (String × String)) : EvalResult :=
  let msds := evalAnswers e answers
  let base := baseScore e answers
  let hard_rule_hit := checkHardRules e.hard_rules answers
  let multiplier := calcMultiplier e.multipliers answers
  let final := finalScore e answers
  let score_classification := classify e.thresholds final
  let classification := reconcile e.thresholds hard_rule_hit score_classification
  { base_score := base
    final_score := final
    multiplier := multiplier
    classification := classification
    threshold_info := lookupStr e.thresholds classification
    recommendation := lookupStr e.recommendations classification
    module_scores := msds.1
    answer_details := msds.2.mergeSort (fun a b => decide (b.contribution ≤ a.contribution))
    hard_rule := hard_rule_hit
    override_msg := (checkHardRules e.hard_rules answers).map (·.override_message)
    active_multipliers := activeMultipliers e.multipliers answers }

/-! ### Calibration engine (`app/core/calibration.py`) -/

/-- Constant `LEARNING_RATE = 0.08`. -/
def LEARNING_RATE : ℚ := 0.08

/-- Constant `MIN_SAMPLES = 5`. -/
def MIN_SAMPLES : ℕ := 5

/-- One row of the IncidentAnswer table as the calibration reads it:
`question_id` and the `contribution` stored at evaluation time. -/
structure IncidentAnswerR where
  question_id : String
  contribution : ℚ
deriving DecidableEq, Repr

/-- One incident of the outcome ledger with its analyst resolution and
its answer rows. -/
structure IncidentR where
  resolution : String
  answers : List IncidentAnswerR
deriving DecidableEq, Repr

/-- The per-question aggregation record of `question_stats`. -/
structure QStats where
  tp_total : ℕ
  fp_total : ℕ
  contrib_sum : ℚ
  count : ℕ
deriving DecidableEq, Repr

/-- One WeightHistory row written by calibration or manual edit. -/
structure WeightHistoryEntry where
  question_id : String
  module : String
  old_value : ℚ
  new_value : ℚ
deriving DecidableEq, Repr

/-- One CalibrationLog row. -/
structure CalibrationLogR where
  total_incidents : ℕ
  true_positives : ℕ
  false_positives : ℕ
  adjustments_made : ℕ
deriving DecidableEq, Repr

/-- Bump `question_stats[qid]` (insertion-ordered dict: initialise to
zeros on first sight, then increment count / contrib_sum / tp or fp). -/
def updateStats : List (String × QStats) → String → Bool → ℚ → List (String × QStats)
  | [], qid, is_tp, c =>
    [(qid, { tp_total := if is_tp then 1 else 0, fp_total := if is_tp then 0 else 1,
             contrib_sum := c, count := 1 })]
  | p :: rest, qid, is_tp, c =>
    if p.1 == qid then
      (p.1, { tp_total := p.2.tp_total + (if is_tp then 1 else 0),
              fp_total := p.2.fp_total + (if is_tp then 0 else 1),
              contrib_sum := p.2.contrib_sum + c,
              count := p.2.count + 1 }) :: rest
    else p :: updateStats rest qid is_tp c

/-- The double loop of `run_calibration` that builds `question_stats`
from the resolved incidents. -/
def collectStats (resolved : List IncidentR) : List (String × QStats) :=
  resolved.foldl
    (fun acc inc =>
      let is_tp := inc.resolution == "tp_resolved" || inc.resolution == "tp_escalated"
      inc.answers.foldl
        (fun a ans => updateStats a ans.question_id is_tp ans.contribution) acc)
    []

/-- The result of one calibration run: the summary fields of the
returned dict, the question catalog as saved back to disk, and the rows
added to the database. -/
structure CalibResult where
  status : String
  questions : List Question
  history : List WeightHistoryEntry
  logs : List CalibrationLogR
  adjustments : ℕ
  total_resolved : ℕ
deriving DecidableEq, Repr

/-- The body of the weight-adjustment loop of `run_calibration` for one
`(qid, stats)` item: skip under-sampled or unknown questions, compute
`error_rate = tp_rate - fp_q_rate`, clamp and round the new weight, and
commit it (catalog update + WeightHistory row) only beyond the 0.005
deadband. -/
def calibStep (acc : List Question × List WeightHistoryEntry × ℕ)
    (item : String × QStats) : List Question × List WeightHistoryEntry × ℕ :=
  let stats := item.2
  if stats.count < MIN_SAMPLES then acc
  else
    match findQuestion acc.1 item.1 with
    | none => acc
    | some q =>
      let tp_rate : ℚ := (stats.tp_total : ℚ) / (stats.count : ℚ)
      let fp_q_rate : ℚ := (stats.fp_total : ℚ) / (stats.count : ℚ)
      let error_rate := tp_rate - fp_q_rate
      let old_weight := q.weight
      let adjustment := LEARNING_RATE * error_rate
      let new_weight := round3 (max 0.1 (min 3.0 (old_weight + adjustment)))
      if 0.005 < |new_weight - old_weight| then
        (acc.1.map (fun q2 => if q2.id == item.1 then { q2 with weight := new_weight } else q2),
         acc.2.1 ++ [{ question_id := item.1, module := q.module,
                       old_value := old_weight, new_value := new_weight }],
         acc.2.2 + 1)
      else acc

/-- Embedding of `run_calibration(db)`.  The ledger is passed as the list of all
incidents; the function filters the terminally-resolved ones, applies
the skip floor, aggregates per-question stats, adjusts weights, and
(when not skipped) records exactly one CalibrationLog row. -/
def run_calibration (incidents : List IncidentR) (questions : List Question) :
    CalibResult :=
  let resolved := incidents.filter
    (fun i => i.resolution == "fp" || i.resolution == "tp_resolved" ||
              i.resolution == "tp_escalated")
  if resolved.length < MIN_SAMPLES then
    { status := "skipped", questions := questions, history := [], logs := [],
      adjustments := 0, total_resolved := resolved.length }
  else
    let fp_count := (resolved.filter (fun i => i.resolution == "fp")).length
    let tp_count := resolved.length - fp_count
    let stats := collectStats resolved
    let out := stats.foldl calibStep (questions, [], 0)
    { status := "completed", questions := out.1, history := out.2.1,
      logs := [{ total_incidents := resolved.length, true_positives := tp_count,
                 false_positives := fp_count, adjustments_made := out.2.2 }],
      adjustments := out.2.2, total_resolved := resolved.length }

/-- Embedding of `update_question_weight` (admin route): the stored weight is
`max(0.1, min(5.0, round(submitted, 3)))`. -/
def manualWeightUpdate (submitted : ℚ) : ℚ :=
  max 0.1 (min 5.0 (round3 submitted))

/-! ### Lemmas about rounding -/

theorem roundHE_intCast (n : ℤ) : roundHE (n : ℚ) = n := by
  simp only [roundHE, Int.floor_intCast, sub_self]
  norm_num

theorem roundHE_floor_le (x : ℚ) : ⌊x⌋ ≤ roundHE x := by
  simp only [roundHE]
  split_ifs <;> omega

theorem roundHE_le_floor_add_one (x : ℚ) : roundHE x ≤ ⌊x⌋ + 1 := by
  simp only [roundHE]
  split_ifs <;> omega

theorem roundHE_mono {x y : ℚ} (h : x ≤ y) : roundHE x ≤ roundHE y := by
  rcases lt_or_eq_of_le (Int.floor_le_floor h) with hf | hf
  · calc roundHE x ≤ ⌊x⌋ + 1 := roundHE_le_floor_add_one x
      _ ≤ ⌊y⌋ := by omega
      _ ≤ roundHE y := roundHE_floor_le y
  · simp only [roundHE, ← hf]
    have hr : x - (⌊x⌋ : ℚ) ≤ y - (⌊x⌋ : ℚ) := by linarith
    split_ifs <;> first | omega | linarith

theorem roundTo_mono (d : ℕ) {x y : ℚ} (h : x ≤ y) : roundTo d x ≤ roundTo d y := by
  have hp : (0:ℚ) < 10 ^ d := by positivity
  have h1 : x * 10 ^ d ≤ y * 10 ^ d := by
    exact mul_le_mul_of_nonneg_right h (le_of_lt hp)
  have h2 : (roundHE (x * 10 ^ d) : ℚ) ≤ (roundHE (y * 10 ^ d) : ℚ) := by
    exact_mod_cast roundHE_mono h1
  exact div_le_div_of_nonneg_right h2 hp.le

theorem roundTo_grid (d : ℕ) (n : ℤ) : roundTo d ((n : ℚ) / 10 ^ d) = (n : ℚ) / 10 ^ d := by
  have hp : (10:ℚ) ^ d ≠ 0 := by positivity
  simp only [roundTo, div_mul_cancel₀ _ hp, roundHE_intCast]

theorem round3_grid (n : ℤ) : round3 ((n : ℚ) / 1000) = (n : ℚ) / 1000 := by
  have : ((1000 : ℚ)) = 10 ^ 3 := by norm_num
  simpa [round3, this] using roundTo_grid 3 n

theorem round3_pt1 : round3 (0.1 : ℚ) = 0.1 := by
  have h := round3_grid 100
  norm_num at h ⊢
  exact h

theorem round3_three : round3 (3 : ℚ) = 3 := by
  have h := round3_grid 3000
  norm_num at h
  exact h

theorem roundTo_zero (d : ℕ) : roundTo d (0 : ℚ) = 0 := by
  have h := roundTo_grid d 0
  simpa using h

theorem round2_zero : round2 (0 : ℚ) = 0 := roundTo_zero 2

theorem round3_one : round3 (1 : ℚ) = 1 := by
  have h := round3_grid 1000
  norm_num at h
  exact h

/-- Rounding to 3 places preserves the calibration clamp range. -/
theorem round3_clamp_mem (x : ℚ) :
    0.1 ≤ round3 (max 0.1 (min 3.0 x)) ∧ round3 (max 0.1 (min 3.0 x)) ≤ 3.0 := by
  have h1 : (0.1 : ℚ) ≤ max 0.1 (min 3.0 x) := le_max_left _ _
  have h2 : max 0.1 (min 3.0 x) ≤ 3.0 := max_le (by norm_num) (min_le_left _ _)
  constructor
  · have := roundTo_mono 3 h1
    rw [show roundTo 3 (0.1:ℚ) = round3 (0.1:ℚ) from rfl, round3_pt1] at this
    exact this
  · have h3 := roundTo_mono 3 h2
    have h4 : roundTo 3 (3.0 : ℚ) = 3 := by
      rw [show (3.0 : ℚ) = 3 by norm_num]
      exact round3_three
    rw [h4] at h3
    calc round3 (max 0.1 (min 3.0 x)) = roundTo 3 (max 0.1 (min 3.0 x)) := rfl
      _ ≤ 3 := h3
      _ = 3.0 := by norm_num

/-! ### Lemmas about the multiplier composer -/

theorem foldl_mult_eq_prod (answers : List (String × String)) (rules : List MultRule)
    (t : ℚ) :
    rules.foldl
      (fun total r => if condsMatch answers r.conditions then total * r.multiplier else total)
      t
    = t * ((activeMultipliers rules answers).map (·.multiplier)).prod := by
  induction rules generalizing t with
  | nil => simp [activeMultipliers]
  | cons r rest ih =>
    by_cases h : condsMatch answers r.conditions
    · simp [activeMultipliers, List.filter_cons, h, ih, List.foldl_cons]
      ring
    · simp [activeMultipliers, List.filter_cons, h, ih, List.foldl_cons]

/-- The composed multiplier is the 3-decimal rounding of the product of
the factors of exactly the matching rules. -/
theorem calcMultiplier_eq_prod (rules : List MultRule) (answers : List (String × String)) :
    calcMultiplier rules answers
    = round3 (((activeMultipliers rules answers).map (·.multiplier)).prod) := by
  rw [calcMultiplier, foldl_mult_eq_prod, one_mul]

theorem calcMultiplier_perm {rules rules' : List MultRule}
    (h : rules.Perm rules') (answers : List (String × String)) :
    calcMultiplier rules answers = calcMultiplier rules' answers := by
  rw [calcMultiplier_eq_prod, calcMultiplier_eq_prod]
  have hp : (activeMultipliers rules answers).Perm (activeMultipliers rules' answers) :=
    h.filter _
  rw [(hp.map (·.multiplier)).prod_eq]

/-! ### Claim C4 -/

/-- Claim **C4**: for every answer set and every list of multiplier rules, the
composed multiplier equals the product of the factors of exactly those
rules all of whose conditions match the raw answer set, rounded to 3
decimal places (non-matching rules contribute the neutral factor 1,
i.e. are excluded from the product), and the composed multiplier is
invariant under any reordering of the multiplier-rule list. -/
theorem C4_multiplier_product_and_commutative
    (rules rules' : List MultRule) (answers : List (String × String))
    (hperm : rules.Perm rules') :
    calcMultiplier rules answers
      = round3 (((rules.filter (fun r => condsMatch answers r.conditions)).map
          (·.multiplier)).prod)
    ∧ calcMultiplier rules' answers = calcMultiplier rules answers := by
  refine ⟨calcMultiplier_eq_prod rules answers, ?_⟩
  exact calcMultiplier_perm hperm.symm answers

def wMr1 : MultRule := { conditions := [{ question_id := "q1", value := "yes" }], multiplier := 2 }
def wMr2 : MultRule := { conditions := [], multiplier := 3 }
def wAns : List (String × String) := [("q1", "yes")]

/-- Witness for C4 at a concrete rule list, its swap, and a concrete
answer set. -/
theorem C4_witness :
    calcMultiplier [wMr1, wMr2] wAns
      = round3 ((([wMr1, wMr2].filter (fun r => condsMatch wAns r.conditions)).map
          (·.multiplier)).prod)
    ∧ calcMultiplier [wMr2, wMr1] wAns = calcMultiplier [wMr1, wMr2] wAns :=
  C4_multiplier_product_and_commutative [wMr1, wMr2] [wMr2, wMr1] wAns
    (List.Perm.swap wMr2 wMr1 [])

/-! ### Claim C10 -/

/-- Claim **C10**: a rule whose conditions list is empty matches every answer
set vacuously: an empty-condition hard rule always fires (so the scan
never reaches any rule declared after it — the first match is found in
the prefix up to and including that rule, and some rule always
matches), and an empty-condition multiplier rule is always in the
active-multiplier list and its factor is always a factor of the
composed product. -/
theorem C10_empty_conditions_always_match
    (answers : List (String × String))
    (pre post : List HardRule) (r : HardRule) (hr : r.conditions = [])
    (mpre mpost : List MultRule) (mr : MultRule) (hmr : mr.conditions = []) :
    condsMatch answers r.conditions = true
    ∧ checkHardRules (pre ++ r :: post) answers = checkHardRules (pre ++ [r]) answers
    ∧ (checkHardRules (pre ++ r :: post) answers).isSome
    ∧ mr ∈ activeMultipliers (mpre ++ mr :: mpost) answers
    ∧ calcMultiplier (mpre ++ mr :: mpost) answers
        = round3 (mr.multiplier
            * (((mpre ++ mpost).filter (fun r2 => condsMatch answers r2.conditions)).map
                (·.multiplier)).prod) := by
  have hmatch : condsMatch answers r.conditions = true := by
    rw [hr]; rfl
  have hmmatch : condsMatch answers mr.conditions = true := by
    rw [hmr]; rfl
  refine ⟨hmatch, ?_, ?_, ?_, ?_⟩
  · rw [checkHardRules, checkHardRules, List.find?_append, List.find?_append]
    have h1 : List.find? (fun rl => condsMatch answers rl.conditions) (r :: post)
        = some r := by
      simp [List.find?_cons, hmatch]
    have h2 : List.find? (fun rl => condsMatch answers rl.conditions) [r] = some r := by
      simp [List.find?_cons, hmatch]
    rw [h1, h2]
  · rw [checkHardRules, List.find?_append]
    rcases hfind : List.find? (fun rl => condsMatch answers rl.conditions) pre with _ | r2
    · simp [List.find?_cons, hmatch]
    · simp
      have hp2 : condsMatch answers r2.conditions = true := by
        have h4 := List.find?_some hfind
        simpa using h4
      exact Or.inl ⟨r2, List.mem_of_find?_eq_some hfind, hp2⟩
  · rw [activeMultipliers, List.mem_filter]
    exact ⟨List.mem_append_right _ (List.mem_cons_self _ _), hmmatch⟩
  · rw [calcMultiplier_eq_prod, activeMultipliers, List.filter_append]
    have h3 : List.filter (fun r2 => condsMatch answers r2.conditions) (mr :: mpost)
        = mr :: List.filter (fun r2 => condsMatch answers r2.conditions) mpost := by
      simp [List.filter_cons, hmmatch]
    rw [h3, List.filter_append, List.map_append, List.map_append, List.map_cons,
      List.prod_append, List.prod_append, List.prod_cons]
    congr 1
    ring

def wHr0 : HardRule := { conditions := [], classification := "critico", override_message := "m" }
def wHr1 : HardRule :=
  { conditions := [{ question_id := "q9", value := "x" }], classification := "brecha",
    override_message := "n" }
def wMr0 : MultRule := { conditions := [], multiplier := 4 }

/-- Witness for C10 at concrete rule lists and a concrete answer set. -/
theorem C10_witness :
    condsMatch wAns wHr0.conditions = true
    ∧ checkHardRules ([wHr1] ++ wHr0 :: [wHr1]) wAns = checkHardRules ([wHr1] ++ [wHr0]) wAns
    ∧ (checkHardRules ([wHr1] ++ wHr0 :: [wHr1]) wAns).isSome
    ∧ wMr0 ∈ activeMultipliers ([wMr1] ++ wMr0 :: [wMr2]) wAns
    ∧ calcMultiplier ([wMr1] ++ wMr0 :: [wMr2]) wAns
        = round3 (wMr0.multiplier
            * ((([wMr1] ++ [wMr2]).filter (fun r2 => condsMatch wAns r2.conditions)).map
                (·.multiplier)).prod) :=
  C10_empty_conditions_always_match wAns [wHr1] [wHr1] wHr0 rfl [wMr1] [wMr2] wMr0 rfl

/-! ### Lemmas about the answers loop -/

/-- An answer whose question is unknown, or whose raw score is 0, leaves
the loop state untouched. -/
theorem evalStep_skip (e : Engine) (acc : List (String × ℚ) × List AnswerDetail)
    (p : String × String)
    (h : ∀ q, findQuestion e.questions p.1 = some q → getRawScore q p.2 = 0) :
    evalStep e acc p = acc := by
  rw [evalStep]
  rcases hq : findQuestion e.questions p.1 with _ | q
  · rfl
  · have hz := h q hq
    simp [hz]

/-- Dropping a skipped answer from anywhere in the answer list does not
change the loop result. -/
theorem evalAnswers_drop (e : Engine) (pre post : List (String × String))
    (p : String × String)
    (h : ∀ q, findQuestion e.questions p.1 = some q → getRawScore q p.2 = 0) :
    evalAnswers e (pre ++ p :: post) = evalAnswers e (pre ++ post) := by
  rw [evalAnswers, evalAnswers, List.foldl_append, List.foldl_append, List.foldl_cons,
    evalStep_skip e _ p h]

/-- The loop step either keeps the detail list unchanged or appends one
line whose `question_id` is the processed answer's key. -/
theorem evalStep_details (e : Engine) (acc : List (String × ℚ) × List AnswerDetail)
    (p : String × String) :
    (evalStep e acc p).2 = acc.2
    ∨ ∃ dt, (evalStep e acc p).2 = acc.2 ++ [dt] ∧ dt.question_id = p.1 := by
  rw [evalStep]
  rcases findQuestion e.questions p.1 with _ | q
  · exact Or.inl rfl
  · dsimp only
    by_cases hz : getRawScore q p.2 == 0
    · rw [if_pos hz]
      exact Or.inl rfl
    · rw [if_neg hz]
      exact Or.inr ⟨_, rfl, rfl⟩

/-- Every detail line produced by the loop comes from a processed answer
key. -/
theorem detail_ids_from_answers (e : Engine) (l : List (String × String))
    (acc : List (String × ℚ) × List AnswerDetail) :
    ∀ d ∈ (l.foldl (evalStep e) acc).2, d ∈ acc.2 ∨ d.question_id ∈ l.map Prod.fst := by
  induction l generalizing acc with
  | nil => intro d hd; exact Or.inl hd
  | cons p rest ih =>
    intro d hd
    rw [List.foldl_cons] at hd
    rcases ih (evalStep e acc p) d hd with hin | hin
    · rcases evalStep_details e acc p with h1 | ⟨dt, h1, h2⟩
      · rw [h1] at hin
        exact Or.inl hin
      · rw [h1] at hin
        rcases List.mem_append.mp hin with hin2 | hin2
        · exact Or.inl hin2
        · right
          rw [List.mem_singleton] at hin2
          rw [hin2, h2]
          simp
    · right
      simp [hin]

/-! ### Projection lemmas for `evaluate` -/

theorem evaluate_base_score (e : Engine) (a : List (String × String)) :
    (evaluate e a).base_score = baseScore e a := rfl

theorem evaluate_multiplier (e : Engine) (a : List (String × String)) :
    (evaluate e a).multiplier = calcMultiplier e.multipliers a := rfl

theorem evaluate_hard_rule (e : Engine) (a : List (String × String)) :
    (evaluate e a).hard_rule = checkHardRules e.hard_rules a := rfl

theorem evaluate_module_scores (e : Engine) (a : List (String × String)) :
    (evaluate e a).module_scores = (evalAnswers e a).1 := rfl

theorem evaluate_answer_details (e : Engine) (a : List (String × String)) :
    (evaluate e a).answer_details
      = (evalAnswers e a).2.mergeSort (fun x y => decide (y.contribution ≤ x.contribution)) :=
  rfl

theorem evaluate_classification (e : Engine) (a : List (String × String)) :
    (evaluate e a).classification
      = reconcile e.thresholds (checkHardRules e.hard_rules a)
          (classify e.thresholds (finalScore e a)) := rfl

theorem evaluate_threshold_info (e : Engine) (a : List (String × String)) :
    (evaluate e a).threshold_info
      = lookupStr e.thresholds (evaluate e a).classification := rfl

theorem evaluate_recommendation (e : Engine) (a : List (String × String)) :
    (evaluate e a).recommendation
      = lookupStr e.recommendations (evaluate e a).classification := rfl

/-! ### Claim C6 -/

/-- Claim **C6**: an answer naming an unknown question id, or a known question
with an unrecognized option value, is skipped without error: the loop
state, `base_score`, `answer_details` and the per-module subtotals of
`evaluate` are exactly those of the answer set without that pair, so the
pair contributes exactly zero.  (The embedding is a total function, so
no error is possible by construction.) -/
theorem C6_unknown_input_contributes_zero (e : Engine)
    (pre post : List (String × String)) (qid v : String)
    (h : findQuestion e.questions qid = none
        ∨ ∃ q, findQuestion e.questions qid = some q
            ∧ q.options.find? (fun o => o.value == v) = none) :
    evalAnswers e (pre ++ (qid, v) :: post) = evalAnswers e (pre ++ post)
    ∧ (evaluate e (pre ++ (qid, v) :: post)).base_score
        = (evaluate e (pre ++ post)).base_score
    ∧ (evaluate e (pre ++ (qid, v) :: post)).answer_details
        = (evaluate e (pre ++ post)).answer_details
    ∧ (evaluate e (pre ++ (qid, v) :: post)).module_scores
        = (evaluate e (pre ++ post)).module_scores := by
  have hskip : ∀ q, findQuestion e.questions (qid, v).1 = some q →
      getRawScore q (qid, v).2 = 0 := by
    intro q hq
    rcases h with h1 | ⟨q2, hq2, hopt⟩
    · rw [h1] at hq
      cases hq
    · rw [hq2] at hq
      cases hq
      rw [getRawScore, hopt]
  have hE := evalAnswers_drop e pre post (qid, v) hskip
  refine ⟨hE, ?_, ?_, ?_⟩
  · show round2 (sumValues (evalAnswers e (pre ++ (qid, v) :: post)).1)
        = round2 (sumValues (evalAnswers e (pre ++ post)).1)
    rw [hE]
  · show ((evalAnswers e (pre ++ (qid, v) :: post)).2).mergeSort _
        = ((evalAnswers e (pre ++ post)).2).mergeSort _
    rw [hE]
  · show (evalAnswers e (pre ++ (qid, v) :: post)).1 = (evalAnswers e (pre ++ post)).1
    rw [hE]

def wEngine : Engine :=
  { module_weights := [("m1", 2)]
    thresholds := [("informativo", { tmin := 0, tmax := 10 }),
                   ("critico", { tmin := 11, tmax := 1000 })]
    multipliers := []
    hard_rules := []
    recommendations := [("informativo", "ok"), ("critico", "act")]
    questions := [{ id := "q1", module := "m1", text := "t1", weight := 1,
                    options := [{ value := "yes", label := "Yes", score := 10 },
                                { value := "zero", label := "Zero", score := 0 }] }] }

/-- Witness for C6: an unknown question id in a concrete engine. -/
theorem C6_witness :
    evalAnswers wEngine ([("q1", "yes")] ++ ("zz", "v") :: [])
        = evalAnswers wEngine ([("q1", "yes")] ++ [])
    ∧ (evaluate wEngine ([("q1", "yes")] ++ ("zz", "v") :: [])).base_score
        = (evaluate wEngine ([("q1", "yes")] ++ [])).base_score
    ∧ (evaluate wEngine ([("q1", "yes")] ++ ("zz", "v") :: [])).answer_details
        = (evaluate wEngine ([("q1", "yes")] ++ [])).answer_details
    ∧ (evaluate wEngine ([("q1", "yes")] ++ ("zz", "v") :: [])).module_scores
        = (evaluate wEngine ([("q1", "yes")] ++ [])).module_scores :=
  C6_unknown_input_contributes_zero wEngine [("q1", "yes")] [] "zz" "v"
    (Or.inl (by simp [findQuestion, wEngine]))

/-! ### Claim C9 -/

/-- Claim **C9 (amended)**: an answer selecting a recognized option with raw
score exactly 0 is dropped from the loop exactly like an unrecognized
value: it appears nowhere in `answer_details`, adds nothing to any
module subtotal or to `base_score`, and the contribution breakdown is
identical to the one produced with an unknown value in its place.  (The
raw answer set still feeds hard-rule and multiplier matching, which can
distinguish the two — see the counterexample.) -/
theorem C9_zero_score_dropped_like_unknown (e : Engine)
    (pre post : List (String × String)) (qid v v2 : String)
    (q : Question) (o : QOption)
    (hq : findQuestion e.questions qid = some q)
    (hopt : q.options.find? (fun o2 => o2.value == v) = some o)
    (hzero : o.score = 0)
    (hv2 : q.options.find? (fun o2 => o2.value == v2) = none)
    (hkeys : qid ∉ (pre ++ post).map Prod.fst) :
    evalAnswers e (pre ++ (qid, v) :: post) = evalAnswers e (pre ++ post)
    ∧ evalAnswers e (pre ++ (qid, v) :: post) = evalAnswers e (pre ++ (qid, v2) :: post)
    ∧ (evaluate e (pre ++ (qid, v) :: post)).answer_details
        = (evaluate e (pre ++ (qid, v2) :: post)).answer_details
    ∧ (evaluate e (pre ++ (qid, v) :: post)).module_scores
        = (evaluate e (pre ++ (qid, v2) :: post)).module_scores
    ∧ (evaluate e (pre ++ (qid, v) :: post)).base_score
        = (evaluate e (pre ++ (qid, v2) :: post)).base_score
    ∧ ∀ d ∈ (evaluate e (pre ++ (qid, v) :: post)).answer_details,
        d.question_id ≠ qid := by
  have hskip1 : ∀ q2, findQuestion e.questions (qid, v).1 = some q2 →
      getRawScore q2 (qid, v).2 = 0 := by
    intro q2 hq2
    rw [hq] at hq2
    cases hq2
    rw [getRawScore, hopt]
    exact hzero
  have hskip2 : ∀ q2, findQuestion e.questions (qid, v2).1 = some q2 →
      getRawScore q2 (qid, v2).2 = 0 := by
    intro q2 hq2
    rw [hq] at hq2
    cases hq2
    rw [getRawScore, hv2]
  have hd1 := evalAnswers_drop e pre post (qid, v) hskip1
  have hd2 := evalAnswers_drop e pre post (qid, v2) hskip2
  have hd12 : evalAnswers e (pre ++ (qid, v) :: post)
      = evalAnswers e (pre ++ (qid, v2) :: post) := by rw [hd1, hd2]
  refine ⟨hd1, hd12, ?_, ?_, ?_, ?_⟩
  · rw [evaluate_answer_details, evaluate_answer_details, hd12]
  · rw [evaluate_module_scores, evaluate_module_scores, hd12]
  · rw [evaluate_base_score, evaluate_base_score, baseScore, baseScore, hd12]
  · intro d hd
    rw [evaluate_answer_details] at hd
    have hd' : d ∈ (evalAnswers e (pre ++ (qid, v) :: post)).2 :=
      (List.mem_mergeSort).mp hd
    rw [hd1] at hd'
    rcases detail_ids_from_answers e (pre ++ post) ([], []) d hd' with h0 | hmem
    · cases h0
    · intro hcontra
      rw [hcontra] at hmem
      exact hkeys hmem

def wCE9 : Engine :=
  { module_weights := [("m1", 1)]
    thresholds := [("informativo", { tmin := 0, tmax := 10 }),
                   ("critico", { tmin := 11, tmax := 1000 })]
    multipliers := []
    hard_rules := [{ conditions := [{ question_id := "q1", value := "zero" }],
                     classification := "critico", override_message := "hr" }]
    recommendations := [("informativo", "ok"), ("critico", "act")]
    questions := [{ id := "q1", module := "m1", text := "t1", weight := 1,
                    options := [{ value := "zero", label := "Zero", score := 0 }] }] }

/-- Counterexample to **C9 as stated**: with a hard rule conditioned on
the zero-score answer pair, a recognized zero-score option is *not*
indistinguishable in the output from an unknown value — the contribution
breakdowns agree (both empty) but the classifications differ, because
hard-rule matching reads the raw answer set.  Both classifications are
configured keys of `wCE9`'s thresholds and recommendations, so the
`thresholds[classification]` and `recommendations[classification]`
lookups succeed on both inputs (no `KeyError` path is involved:
`evaluate` returns normally in Python, with the asserted values). -/
theorem C9_counterexample :
    (evaluate wCE9 [("q1", "zero")]).answer_details
        = (evaluate wCE9 [("q1", "bogus")]).answer_details
    ∧ (evaluate wCE9 [("q1", "zero")]).module_scores
        = (evaluate wCE9 [("q1", "bogus")]).module_scores
    ∧ (evaluate wCE9 [("q1", "zero")]).base_score
        = (evaluate wCE9 [("q1", "bogus")]).base_score
    ∧ (evaluate wCE9 [("q1", "zero")]).classification = "critico"
    ∧ (evaluate wCE9 [("q1", "bogus")]).classification = "informativo"
    ∧ (evaluate wCE9 [("q1", "zero")]).recommendation = some "act"
    ∧ (evaluate wCE9 [("q1", "bogus")]).recommendation = some "ok"
    ∧ (evaluate wCE9 [("q1", "zero")]).threshold_info
        = some { tmin := 11, tmax := 1000 }
    ∧ (evaluate wCE9 [("q1", "bogus")]).threshold_info
        = some { tmin := 0, tmax := 10 } := by
  have hA : evalAnswers wCE9 [("q1", "zero")] = ([], []) := by
    simp [evalAnswers, evalStep, findQuestion, wCE9, getRawScore, List.find?]
  have hB : evalAnswers wCE9 [("q1", "bogus")] = ([], []) := by
    simp [evalAnswers, evalStep, findQuestion, wCE9, getRawScore, List.find?]
  have hbaseA : baseScore wCE9 [("q1", "zero")] = 0 := by
    rw [baseScore, hA]
    simpa [sumValues] using round2_zero
  have hbaseB : baseScore wCE9 [("q1", "bogus")] = 0 := by
    rw [baseScore, hB]
    simpa [sumValues] using round2_zero
  have hmultA : calcMultiplier wCE9.multipliers [("q1", "zero")] = 1 := by
    rw [show wCE9.multipliers = [] from rfl, calcMultiplier]
    simpa using round3_one
  have hmultB : calcMultiplier wCE9.multipliers [("q1", "bogus")] = 1 := by
    rw [show wCE9.multipliers = [] from rfl, calcMultiplier]
    simpa using round3_one
  have hfinA : finalScore wCE9 [("q1", "zero")] = 0 := by
    rw [finalScore, hbaseA, hmultA]
    simpa using round2_zero
  have hfinB : finalScore wCE9 [("q1", "bogus")] = 0 := by
    rw [finalScore, hbaseB, hmultB]
    simpa using round2_zero
  have hcls : classify wCE9.thresholds 0 = "informativo" := by
    norm_num [classify, wCE9, List.find?]
  have hhrA : checkHardRules wCE9.hard_rules [("q1", "zero")]
      = some { conditions := [{ question_id := "q1", value := "zero" }],
               classification := "critico", override_message := "hr" } := by
    simp [checkHardRules, wCE9, condsMatch, condMatches, lookupStr, List.find?]
  have hhrB : checkHardRules wCE9.hard_rules [("q1", "bogus")] = none := by
    simp [checkHardRules, wCE9, condsMatch, condMatches, lookupStr, List.find?]
  have hclsA : (evaluate wCE9 [("q1", "zero")]).classification = "critico" := by
    rw [evaluate_classification, hfinA, hcls, hhrA]
    rfl
  have hclsB : (evaluate wCE9 [("q1", "bogus")]).classification = "informativo" := by
    rw [evaluate_classification, hfinB, hcls, hhrB]
    rfl
  refine ⟨?_, ?_, ?_, hclsA, hclsB, ?_, ?_, ?_, ?_⟩
  · rw [evaluate_answer_details, evaluate_answer_details, hA, hB]
  · rw [evaluate_module_scores, evaluate_module_scores, hA, hB]
  · rw [evaluate_base_score, evaluate_base_score, hbaseA, hbaseB]
  · rw [evaluate_recommendation, hclsA]
    rfl
  · rw [evaluate_recommendation, hclsB]
    rfl
  · rw [evaluate_threshold_info, hclsA]
    rfl
  · rw [evaluate_threshold_info, hclsB]
    rfl

/-- Witness for the amended C9 at a concrete engine: the option
`"zero"` of question `q1` has raw score 0 and behaves exactly like the
unknown value `"bogus"` in the breakdown. -/
theorem C9_witness :
    evalAnswers wEngine ([] ++ ("q1", "zero") :: []) = evalAnswers wEngine ([] ++ [])
    ∧ evalAnswers wEngine ([] ++ ("q1", "zero") :: [])
        = evalAnswers wEngine ([] ++ ("q1", "bogus") :: [])
    ∧ (evaluate wEngine ([] ++ ("q1", "zero") :: [])).answer_details
        = (evaluate wEngine ([] ++ ("q1", "bogus") :: [])).answer_details
    ∧ (evaluate wEngine ([] ++ ("q1", "zero") :: [])).module_scores
        = (evaluate wEngine ([] ++ ("q1", "bogus") :: [])).module_scores
    ∧ (evaluate wEngine ([] ++ ("q1", "zero") :: [])).base_score
        = (evaluate wEngine ([] ++ ("q1", "bogus") :: [])).base_score
    ∧ ∀ d ∈ (evaluate wEngine ([] ++ ("q1", "zero") :: [])).answer_details,
        d.question_id ≠ "q1" :=
  C9_zero_score_dropped_like_unknown wEngine [] [] "q1" "zero" "bogus"
    { id := "q1", module := "m1", text := "t1", weight := 1,
      options := [{ value := "yes", label := "Yes", score := 10 },
                  { value := "zero", label := "Zero", score := 0 }] }
    { value := "zero", label := "Zero", score := 0 }
    rfl rfl rfl rfl (by simp)

/-! ### Claim C3 -/

/-- Modelled from the spec: "tiers ordered from least to most severe",
so the most severe *configured* tier is the last key of the threshold
table. -/
def mostSevereTier (thresholds : List (String × Tier)) : Option String :=
  (thresholds.map Prod.fst).getLast?

/-- Claim **C3 (amended)**: for every configured threshold table and every
score outside all configured ranges, `_classify` returns the fixed
literal key `"brecha"` — it never returns "no classification" and the
total-function embedding shows no exception is raised for a numeric
score.  This equals the single most severe configured tier exactly when
the table's most severe (last) key is `"brecha"`, as in the canonical
`CLASSIFICATION_ORDER`; for tables whose most severe tier is a
different key the fallback is not the most severe configured tier (see
the counterexample). -/
theorem C3_classify_fallback (thresholds : List (String × Tier)) (score : ℚ)
    (h : ∀ p ∈ thresholds, ¬(p.2.tmin ≤ score ∧ score ≤ p.2.tmax)) :
    classify thresholds score = "brecha"
    ∧ (mostSevereTier thresholds = some "brecha" →
        some (classify thresholds score) = mostSevereTier thresholds) := by
  have hfind : thresholds.find?
      (fun p => decide (p.2.tmin ≤ score ∧ score ≤ p.2.tmax)) = none := by
    rw [List.find?_eq_none]
    intro p hp
    simpa using h p hp
  have hb : classify thresholds score = "brecha" := by
    rw [classify, hfind]
  refine ⟨hb, ?_⟩
  intro hlast
  rw [hb, hlast]

def wT3 : List (String × Tier) := [("informativo", { tmin := 0, tmax := 100 })]

/-- Counterexample to **C3 as stated**: a configured threshold table
whose single (hence most severe) tier is `"informativo"`; for the
out-of-range score 200 the classifier returns the unconfigured key
`"brecha"`, not the most severe configured tier. -/
theorem C3_counterexample :
    classify wT3 200 = "brecha"
    ∧ mostSevereTier wT3 = some "informativo"
    ∧ classify wT3 200 ≠ "informativo"
    ∧ "brecha" ∉ wT3.map Prod.fst := by
  have hc : classify wT3 200 = "brecha" := by
    norm_num [classify, wT3, List.find?]
  refine ⟨hc, rfl, ?_, by simp [wT3]⟩
  rw [hc]
  simp

def wT3b : List (String × Tier) :=
  [("informativo", { tmin := 0, tmax := 10 }), ("brecha", { tmin := 11, tmax := 100 })]

/-- Witness for the amended C3: a two-tier table ending in `"brecha"`
and the out-of-range score 2000. -/
theorem C3_witness :
    classify wT3b 2000 = "brecha"
    ∧ (mostSevereTier wT3b = some "brecha" →
        some (classify wT3b 2000) = mostSevereTier wT3b) :=
  C3_classify_fallback wT3b 2000 (by
    intro p hp
    simp only [wT3b, List.mem_cons, List.not_mem_nil, or_false] at hp
    rcases hp with hp | hp
    · rw [hp]
      norm_num
    · rw [hp]
      norm_num)

/-! ### Claim C1 -/

/-- Claim **C1**: if a hard rule matches in `evaluate`, the effective
classification's severity index (its position in the configured tier
order, i.e. the threshold keys in declaration order) is ≥ the hard
rule's own classification's severity index, regardless of
`final_score`; and when the hard rule's tier is not more severe than
the score-derived tier, the score-derived tier is kept — a hard rule
never downgrades.  Hypotheses: the threshold keys are distinct (a
Python dict guarantees this) and both tiers are configured keys (the
claim's "severity index" presupposes this). -/
theorem C1_hard_rule_floor (e : Engine) (answers : List (String × String))
    (rule : HardRule)
    (hhr : checkHardRules e.hard_rules answers = some rule)
    (hnodup : (e.thresholds.map Prod.fst).Nodup)
    (hhr_mem : rule.classification ∈ e.thresholds.map Prod.fst)
    (hsc_mem : classify e.thresholds (finalScore e answers) ∈ e.thresholds.map Prod.fst) :
    (e.thresholds.map Prod.fst).indexOf rule.classification
      ≤ (e.thresholds.map Prod.fst).indexOf (evaluate e answers).classification
    ∧ ((e.thresholds.map Prod.fst).indexOf rule.classification
        ≤ (e.thresholds.map Prod.fst).indexOf
            (classify e.thresholds (finalScore e answers)) →
      (evaluate e answers).classification
        = classify e.thresholds (finalScore e answers)) := by
  have hcls : (evaluate e answers).classification
      = reconcile e.thresholds (some rule) (classify e.thresholds (finalScore e answers)) := by
    rw [evaluate_classification, hhr]
  set order := e.thresholds.map Prod.fst with horder
  set sc := classify e.thresholds (finalScore e answers) with hsc
  have hhr_lt : order.indexOf rule.classification < order.length :=
    List.indexOf_lt_length.mpr hhr_mem
  have hsc_lt : order.indexOf sc < order.length :=
    List.indexOf_lt_length.mpr hsc_mem
  have hmax_lt : max (order.indexOf rule.classification) (order.indexOf sc)
      < order.length := max_lt hhr_lt hsc_lt
  have hrec : reconcile e.thresholds (some rule) sc
      = order.getD (max (order.indexOf rule.classification) (order.indexOf sc)) sc := by
    rw [reconcile]
    rw [if_pos (List.elem_eq_true_of_mem hhr_mem), if_pos (List.elem_eq_true_of_mem hsc_mem)]
  constructor
  · rw [hcls, hrec, List.getD_eq_getElem order sc hmax_lt,
      List.indexOf_getElem hnodup _ hmax_lt]
    exact le_max_left _ _
  · intro hle
    have hm : max (order.indexOf rule.classification) (order.indexOf sc)
        = order.indexOf sc := max_eq_right hle
    rw [hcls, hrec, hm, List.getD_eq_getElem order sc hsc_lt,
      List.getElem_indexOf hsc_lt]

def wC1e : Engine :=
  { module_weights := []
    thresholds := [("informativo", { tmin := 0, tmax := 10 }),
                   ("critico", { tmin := 11, tmax := 1000 })]
    multipliers := []
    hard_rules := [{ conditions := [], classification := "critico",
                     override_message := "hr" }]
    recommendations := []
    questions := [] }

/-- Witness for C1: a concrete engine whose empty-condition hard rule
(classification `"critico"`) matches the empty answer set, whose score
classifies as `"informativo"`. -/
theorem C1_witness :
    (["informativo", "critico"].indexOf "critico"
      ≤ ["informativo", "critico"].indexOf (evaluate wC1e []).classification)
    ∧ (["informativo", "critico"].indexOf "critico"
        ≤ ["informativo", "critico"].indexOf
            (classify wC1e.thresholds (finalScore wC1e [])) →
      (evaluate wC1e []).classification
        = classify wC1e.thresholds (finalScore wC1e [])) := by
  have h := C1_hard_rule_floor wC1e []
    { conditions := [], classification := "critico", override_message := "hr" }
    rfl (by decide) (by decide) ?_
  · exact h
  · have hfin : finalScore wC1e [] = 0 := by
      rw [finalScore, baseScore]
      have h1 : evalAnswers wC1e [] = ([], []) := rfl
      rw [h1]
      have h2 : calcMultiplier wC1e.multipliers [] = 1 := by
        rw [show wC1e.multipliers = [] from rfl, calcMultiplier]
        simpa using round3_one
      rw [h2]
      simp [sumValues, round2_zero]
    rw [hfin]
    have hcls0 : classify wC1e.thresholds 0 = "informativo" := by
      norm_num [classify, wC1e, List.find?]
    rw [hcls0]
    decide

/-! ### Claim C5: machinery -/

/-- Claim **C7**: with fewer than `MIN_SAMPLES` (5) resolved incidents,
`run_calibration` returns status `"skipped"`, performs no mutation at
all (the question catalog is returned unchanged, no CalibrationLog row
is created) and produces zero WeightHistory records. -/
theorem C7_calibration_skip_floor (incidents : List IncidentR) (questions : List Question)
    (h : (incidents.filter
        (fun i => i.resolution == "fp" || i.resolution == "tp_resolved" ||
                  i.resolution == "tp_escalated")).length < MIN_SAMPLES) :
    (run_calibration incidents questions).status = "skipped"
    ∧ (run_calibration incidents questions).history = []
    ∧ (run_calibration incidents questions).logs = []
    ∧ (run_calibration incidents questions).questions = questions
    ∧ (run_calibration incidents questions).adjustments = 0
    ∧ (run_calibration incidents questions).total_resolved
        = (incidents.filter
            (fun i => i.resolution == "fp" || i.resolution == "tp_resolved" ||
                      i.resolution == "tp_escalated")).length := by
  simp only [run_calibration]
  rw [if_pos h]
  exact ⟨rfl, rfl, rfl, rfl, rfl, rfl⟩

/-- Witness for C7: a one-incident ledger. -/
theorem C7_witness :
    (run_calibration [{ resolution := "fp", answers := [] }] []).status = "skipped"
    ∧ (run_calibration [{ resolution := "fp", answers := [] }] []).history = []
    ∧ (run_calibration [{ resolution := "fp", answers := [] }] []).logs = []
    ∧ (run_calibration [{ resolution := "fp", answers := [] }] []).questions = []
    ∧ (run_calibration [{ resolution := "fp", answers := [] }] []).adjustments = 0
    ∧ (run_calibration [{ resolution := "fp", answers := [] }] []).total_resolved
        = (([{ resolution := "fp", answers := [] }] : List IncidentR).filter
            (fun i => i.resolution == "fp" || i.resolution == "tp_resolved" ||
                      i.resolution == "tp_escalated")).length :=
  C7_calibration_skip_floor [{ resolution := "fp", answers := [] }] [] (by decide)

/-! ### Claim C8 -/

/-- Case analysis of one weight-adjustment step: it either leaves the
state unchanged, or commits a clamped-and-rounded new weight together
with one WeightHistory row. -/
theorem calibStep_cases (acc : List Question × List WeightHistoryEntry × ℕ)
    (item : String × QStats) :
    calibStep acc item = acc
    ∨ ∃ q er, findQuestion acc.1 item.1 = some q
        ∧ calibStep acc item =
            (acc.1.map (fun q2 => if q2.id == item.1 then
                { q2 with weight := round3 (max 0.1 (min 3.0 (q.weight + LEARNING_RATE * er))) }
              else q2),
             acc.2.1 ++ [{ question_id := item.1, module := q.module,
                           old_value := q.weight,
                           new_value := round3 (max 0.1 (min 3.0 (q.weight + LEARNING_RATE * er))) }],
             acc.2.2 + 1) := by
  rw [calibStep]
  by_cases h1 : item.2.count < MIN_SAMPLES
  · rw [if_pos h1]
    exact Or.inl rfl
  · rw [if_neg h1]
    rcases hfq : findQuestion acc.1 item.1 with _ | q
    · exact Or.inl rfl
    · dsimp only
      by_cases h2 : 0.005 < |round3 (max 0.1 (min 3.0 (q.weight
          + LEARNING_RATE * ((item.2.tp_total : ℚ) / (item.2.count : ℚ)
            - (item.2.fp_total : ℚ) / (item.2.count : ℚ))))) - q.weight|
      · rw [if_pos h2]
        exact Or.inr ⟨q, _, rfl, rfl⟩
      · rw [if_neg h2]
        exact Or.inl rfl

/-- Invariant of the weight-adjustment fold: every committed history
row's new value is a clamped-and-rounded weight in `[0.1, 3.0]`, and
every question either still carries its original weight or a weight in
`[0.1, 3.0]`. -/
theorem calib_foldl_invariant (qs0 : List Question) (items : List (String × QStats))
    (acc : List Question × List WeightHistoryEntry × ℕ)
    (hq : ∀ q ∈ acc.1, (∃ q0 ∈ qs0, q0.id = q.id ∧ q.weight = q0.weight)
        ∨ (0.1 ≤ q.weight ∧ q.weight ≤ 3.0))
    (hh : ∀ en ∈ acc.2.1, (0.1 ≤ en.new_value ∧ en.new_value ≤ 3.0)
        ∧ ∃ er, en.new_value = round3 (max 0.1 (min 3.0 (en.old_value + LEARNING_RATE * er)))) :
    (∀ q ∈ (items.foldl calibStep acc).1,
        (∃ q0 ∈ qs0, q0.id = q.id ∧ q.weight = q0.weight)
        ∨ (0.1 ≤ q.weight ∧ q.weight ≤ 3.0))
    ∧ (∀ en ∈ (items.foldl calibStep acc).2.1,
        (0.1 ≤ en.new_value ∧ en.new_value ≤ 3.0)
        ∧ ∃ er, en.new_value
            = round3 (max 0.1 (min 3.0 (en.old_value + LEARNING_RATE * er)))) := by
  induction items generalizing acc with
  | nil => exact ⟨hq, hh⟩
  | cons item rest ih =>
    rw [List.foldl_cons]
    rcases calibStep_cases acc item with hcase | ⟨q, er, _, hcase⟩
    · rw [hcase]
      exact ih acc hq hh
    · rw [hcase]
      apply ih
      · intro q2 hq2
        rcases List.mem_map.mp hq2 with ⟨q3, hq3, hq3e⟩
        by_cases hid : q3.id == item.1
        · rw [if_pos hid] at hq3e
          right
          rw [← hq3e]
          exact round3_clamp_mem _
        · rw [if_neg hid] at hq3e
          rw [← hq3e]
          exact hq q3 hq3
      · intro en hen
        rcases List.mem_append.mp hen with hen | hen
        · exact hh en hen
        · rw [List.mem_singleton] at hen
          rw [hen]
          exact ⟨round3_clamp_mem _, er, rfl⟩

/-- Claim **C8**: after any calibration run every committed question weight —
equivalently every WeightHistory row's `new_value` — lies in
`[0.1, 3.0]` and has the form
`round3(clamp(old_weight + LEARNING_RATE × error_rate, 0.1, 3.0))` with
`LEARNING_RATE = 0.08`; questions never adjusted keep their original
weight; and after any manual weight edit the stored weight lies in
`[0.1, 5.0]`. -/
theorem C8_weight_bounds (incidents : List IncidentR) (questions : List Question) :
    LEARNING_RATE = 0.08
    ∧ (∀ en ∈ (run_calibration incidents questions).history,
        (0.1 ≤ en.new_value ∧ en.new_value ≤ 3.0)
        ∧ ∃ er, en.new_value = round3 (max 0.1 (min 3.0 (en.old_value + LEARNING_RATE * er))))
    ∧ (∀ q ∈ (run_calibration incidents questions).questions,
        (∃ q0 ∈ questions, q0.id = q.id ∧ q.weight = q0.weight)
        ∨ (0.1 ≤ q.weight ∧ q.weight ≤ 3.0))
    ∧ (∀ w : ℚ, 0.1 ≤ manualWeightUpdate w ∧ manualWeightUpdate w ≤ 5.0) := by
  have hmanual : ∀ w : ℚ, 0.1 ≤ manualWeightUpdate w ∧ manualWeightUpdate w ≤ 5.0 := by
    intro w
    constructor
    · exact le_max_left _ _
    · exact max_le (by norm_num) (min_le_left _ _)
  by_cases hlen : (incidents.filter
      (fun i => i.resolution == "fp" || i.resolution == "tp_resolved" ||
                i.resolution == "tp_escalated")).length < MIN_SAMPLES
  · refine ⟨rfl, ?_, ?_, hmanual⟩
    · simp only [run_calibration]
      rw [if_pos hlen]
      intro en hen
      cases hen
    · simp only [run_calibration]
      rw [if_pos hlen]
      intro q hq
      exact Or.inl ⟨q, hq, rfl, rfl⟩
  · have hinv := calib_foldl_invariant questions
      (collectStats (incidents.filter
        (fun i => i.resolution == "fp" || i.resolution == "tp_resolved" ||
                  i.resolution == "tp_escalated")))
      (questions, [], 0)
      (fun q hq => Or.inl ⟨q, hq, rfl, rfl⟩)
      (fun en hen => absurd hen (List.not_mem_nil en))
    refine ⟨rfl, ?_, ?_, hmanual⟩
    · simp only [run_calibration]
      rw [if_neg hlen]
      dsimp only
      exact hinv.2
    · simp only [run_calibration]
      rw [if_neg hlen]
      dsimp only
      exact hinv.1

/-! ### A concrete ledger: 5 true-positive incidents answering `q1` -/

def wInc : IncidentR :=
  { resolution := "tp_resolved", answers := [{ question_id := "q1", contribution := 1 }] }

def wLedger : List IncidentR := [wInc, wInc, wInc, wInc, wInc]

def wQcal (w : ℚ) : List Question :=
  [{ id := "q1", module := "m1", text := "t", weight := w, options := [] }]

theorem round3_grid_add (w : ℚ) (n : ℤ) (hw : w = (n : ℚ) / 1000) :
    round3 (w + 0.08) = w + 0.08 := by
  have e1 : w + 0.08 = ((n + 80 : ℤ) : ℚ) / 1000 := by
    push_cast
    rw [hw, show (0.08 : ℚ) = 80 / 1000 by norm_num, div_add_div_same]
  rw [e1, round3_grid]

/-- On the concrete 5-incident all-true-positive ledger, one calibration
run moves the (grid-aligned, unclamped) weight of `q1` up by exactly
`LEARNING_RATE × 1 = 0.08` and records one adjustment. -/
theorem run_calibration_wLedger (w : ℚ) (n : ℤ) (hw : w = (n : ℚ) / 1000)
    (h1 : 0.1 ≤ w) (h2 : w ≤ 2.92) :
    run_calibration wLedger (wQcal w) =
      { status := "completed", questions := wQcal (w + 0.08),
        history := [{ question_id := "q1", module := "m1",
                      old_value := w, new_value := w + 0.08 }],
        logs := [{ total_incidents := 5, true_positives := 5, false_positives := 0,
                   adjustments_made := 1 }],
        adjustments := 1, total_resolved := 5 } := by
  have hres : List.filter (fun i => i.resolution == "fp" || i.resolution == "tp_resolved" ||
      i.resolution == "tp_escalated") wLedger = wLedger := by
    simp [wLedger, wInc]
  have hfil : List.filter (fun i => i.resolution == "fp") wLedger = [] := by
    simp [wLedger, wInc]
  have hstats : collectStats wLedger
      = [("q1", { tp_total := 5, fp_total := 0, contrib_sum := 5, count := 5 })] := by
    norm_num [collectStats, wLedger, wInc, updateStats]
  have hlen : wLedger.length = 5 := by norm_num [wLedger]
  have hmin : min 3.0 (w + 0.08) = w + 0.08 := min_eq_right (by linarith)
  have hmax : max 0.1 (min 3.0 (w + 0.08)) = w + 0.08 := by
    rw [hmin]
    exact max_eq_right (by linarith)
  have hrnd : round3 (w + 0.08) = w + 0.08 := round3_grid_add w n hw
  have habs : |w + 0.08 - w| = 0.08 := by
    rw [show w + 0.08 - w = 0.08 by ring]
    rw [abs_of_nonneg]
    norm_num
  rw [run_calibration, hres, hfil, hstats, hlen]
  norm_num at hmax hrnd
  norm_num [calibStep, findQuestion, wQcal, MIN_SAMPLES, LEARNING_RATE, hmax, hrnd]
  rw [show |(2 : ℚ)/25| = 2/25 from abs_of_nonneg (by norm_num)]
  norm_num

/-- Witness for C8: the concrete ledger commits the entry
`old_value = 1, new_value = 1.08`, which satisfies the bounds; and a
manual edit of `7` is clamped into `[0.1, 5.0]`. -/
theorem C8_witness :
    ((0.1 ≤ (1 : ℚ) + 0.08 ∧ (1 : ℚ) + 0.08 ≤ 3.0)
      ∧ ∃ er, (1 : ℚ) + 0.08 = round3 (max 0.1 (min 3.0 (1 + LEARNING_RATE * er))))
    ∧ (0.1 ≤ manualWeightUpdate 7 ∧ manualWeightUpdate 7 ≤ 5.0) := by
  have h := C8_weight_bounds wLedger (wQcal 1)
  refine ⟨?_, h.2.2.2 7⟩
  have hrun := run_calibration_wLedger 1 1000 (by norm_num) (by norm_num) (by norm_num)
  have hmem : ({ question_id := "q1", module := "m1", old_value := 1,
                 new_value := 1 + 0.08 } : WeightHistoryEntry)
      ∈ (run_calibration wLedger (wQcal 1)).history := by
    rw [hrun]
    exact List.mem_singleton.mpr rfl
  exact h.2.1 _ hmem

/-! ### Claim C2 -/

/-- Counterexample to **C2 as stated**: on the concrete unchanged
5-incident ledger, after a first completed run the second run is *not*
a no-op — it commits one further adjustment that moves the weight by
another full `0.08`, which is not bounded by the `0.005` deadband. -/
theorem C2_counterexample :
    (run_calibration wLedger (wQcal 1)).status = "completed"
    ∧ (run_calibration wLedger ((run_calibration wLedger (wQcal 1)).questions)).adjustments
        = 1
    ∧ (run_calibration wLedger ((run_calibration wLedger (wQcal 1)).questions)).history
        = [{ question_id := "q1", module := "m1",
             old_value := 1 + 0.08, new_value := 1 + 0.08 + 0.08 }]
    ∧ ¬(|((1 : ℚ) + 0.08 + 0.08) - (1 + 0.08)| ≤ 0.005) := by
  have hrunA := run_calibration_wLedger 1 1000 (by norm_num) (by norm_num) (by norm_num)
  have hrunB := run_calibration_wLedger (1 + 0.08) 1080 (by norm_num) (by norm_num)
    (by norm_num)
  refine ⟨by rw [hrunA], ?_, ?_, ?_⟩
  · rw [hrunA]
    dsimp only
    rw [hrunB]
  · rw [hrunA]
    dsimp only
    rw [hrunB]
  · rw [show ((1 : ℚ) + 0.08 + 0.08) - (1 + 0.08) = 0.08 by ring]
    rw [abs_of_nonneg (by norm_num : (0 : ℚ) ≤ 0.08)]
    norm_num

/-- Claim **C2 (amended)**: a second calibration run on the unchanged ledger
is *not* deadband-bounded in general: the per-question error rate is a
function of the ledger alone (it does not involve the weights), so every
question whose first-run adjustment was committed and whose weight is
still clear of the clamp bounds receives the *same* full
`LEARNING_RATE × error_rate` step again on the second run.  On the
concrete all-true-positive ledger this holds for every grid-aligned
starting weight in `[0.1, 2.84]`: both runs commit exactly one
adjustment of `+0.08` each. -/
theorem C2_second_run_repeats_adjustment (w : ℚ) (n : ℤ) (hw : w = (n : ℚ) / 1000)
    (h1 : 0.1 ≤ w) (h2 : w ≤ 2.84) :
    (run_calibration wLedger (wQcal w)).adjustments = 1
    ∧ (run_calibration wLedger ((run_calibration wLedger (wQcal w)).questions)).adjustments
        = 1
    ∧ (run_calibration wLedger ((run_calibration wLedger (wQcal w)).questions)).history
        = [{ question_id := "q1", module := "m1",
             old_value := w + 0.08, new_value := w + 0.08 + 0.08 }] := by
  have hw' : w + 0.08 = ((n + 80 : ℤ) : ℚ) / 1000 := by
    push_cast
    rw [hw, show (0.08 : ℚ) = 80 / 1000 by norm_num, div_add_div_same]
  have hrunA := run_calibration_wLedger w n hw h1 (by linarith)
  have hrunB := run_calibration_wLedger (w + 0.08) (n + 80) hw' (by linarith) (by linarith)
  refine ⟨by rw [hrunA], ?_, ?_⟩
  · rw [hrunA]
    dsimp only
    rw [hrunB]
  · rw [hrunA]
    dsimp only
    rw [hrunB]

/-- Witness for the amended C2 at the starting weight 1. -/
theorem C2_witness :
    (run_calibration wLedger (wQcal 1)).adjustments = 1
    ∧ (run_calibration wLedger ((run_calibration wLedger (wQcal 1)).questions)).adjustments
        = 1
    ∧ (run_calibration wLedger ((run_calibration wLedger (wQcal 1)).questions)).history
        = [{ question_id := "q1", module := "m1",
             old_value := 1 + 0.08, new_value := 1 + 0.08 + 0.08 }] :=
  C2_second_run_repeats_adjustment 1 1000 (by norm_num) (by norm_num) (by norm_num)

end SOCAssist
